import Mathlib

/-!
Verification development for the contract-analyzer repository.

Shallow embedding of the verification-resolution core:
* `contractInfo.js` — `combineAbis`, `extractEventSignatures`,
  `getCommonNFTEventSignatures`, `getContractInfo`;
* `src/core/sourcify.js` — `fetchSourcifyData`, `verifyContract`;
* `src/core/blockExplorer.js` — `fetchWithRetry`, `getAbiFromExplorer`;
* `src/core/verification.js` — `VerificationService.getVerificationData`.

Network I/O is modelled by explicit oracles (scripted HTTP responses or
service-call outcomes); JavaScript exceptions are modelled with `Except`
(a caught exception corresponds to matching the `.error` constructor).
JSON parsing of ABI strings is modelled by an oracle
`String → Option (List AbiEntry)` (`none` = `JSON.parse` throws).
-/

namespace ContractAnalyzer

/-! ## ABI data model (contractInfo.js) -/

/-- One entry of an ABI `inputs` array: `{name, type, indexed?}`.
`indexed` is `Option Bool` because the field may be absent in JSON
(`input.indexed || false` is used when it is read). -/
structure AbiParam where
  name : String
  type : String
  indexed : Option Bool
deriving DecidableEq

/-- One ABI entry as consumed by `combineAbis` / `extractEventSignatures`:
`{type, name, inputs?, anonymous?}`.  `inputs := none` models an entry whose
`inputs` field is absent (JS `entry.inputs` is `undefined`), which matters to
`combineAbis`: the parenthesised type list is appended to the signature only
when `entry.inputs` is truthy. -/
structure AbiEntry where
  type : String
  name : String
  inputs : Option (List AbiParam)
  anonymous : Bool
deriving DecidableEq

/-- The `(type,type,...)` part of a `combineAbis` signature key:
present only when the entry has an `inputs` field (contractInfo.js:365-367). -/
def inputsSig : Option (List AbiParam) → String
  | none => ""
  | some ins => "(" ++ String.intercalate "," (ins.map (fun i => i.type)) ++ ")"

/-- The uniqueness key built by `processEntry` inside `combineAbis`
(contractInfo.js:359-379).  `none` models the empty signature (`!signature`)
for unrecognised entry types, which makes `processEntry` skip the entry. -/
def entrySig (e : AbiEntry) : Option String :=
  if e.type = "function" ∨ e.type = "event" ∨ e.type = "error" then
    some (e.type ++ ":" ++ e.name ++ inputsSig e.inputs)
  else if e.type = "constructor" then
    some ("constructor" ++ inputsSig e.inputs)
  else if e.type = "receive" ∨ e.type = "fallback" then
    some e.type
  else
    none

/-- `processEntry` (contractInfo.js:359-385): skip entries with no signature,
skip entries whose signature is already in `signatureMap`, otherwise push the
entry to `combined` and record its signature.  State is
`(combined, signatureMap keys)`. -/
def addEntry (st : List AbiEntry × List String) (e : AbiEntry) :
    List AbiEntry × List String :=
  match entrySig e with
  | none => st
  | some s => if s ∈ st.2 then st else (st.1 ++ [e], st.2 ++ [s])

/-- `list.forEach(processEntry)` over the shared `(combined, signatureMap)`
state. -/
def processList (st : List AbiEntry × List String) :
    List AbiEntry → List AbiEntry × List String
  | [] => st
  | e :: es => processList (addEntry st e) es

/-- The merge loop of `combineAbis` (contractInfo.js:356-392): implementation
entries are processed first, then proxy entries, into one shared state. -/
def combineAbisCore (proxyAbi implementationAbi : List AbiEntry) : List AbiEntry :=
  (processList (processList ([], []) implementationAbi) proxyAbi).1

/-- `combineAbis(proxyAbi, implementationAbi)` (contractInfo.js:345-393),
including the null short-circuits on lines 346-354.  `none` models a JS
null/undefined argument (note an empty array is truthy in JS and goes through
the merge loop). -/
def combineAbis : Option (List AbiEntry) → Option (List AbiEntry) → Option (List AbiEntry)
  | none, none => none
  | some p, none => some p
  | none, some i => some i
  | some p, some i => some (combineAbisCore p i)

/-- Signature key appears in neither the accumulated seen-set: a proxy entry
survives the merge exactly when this holds of the implementation keys. -/
def keyFresh (seen : List String) (e : AbiEntry) : Bool :=
  match entrySig e with
  | none => false
  | some s => decide (s ∉ seen)

/-! ## JavaScript string helpers

`String.prototype.includes / startsWith / endsWith / trim / toLowerCase`,
modelled on the character lists of the strings. -/

/-- JS `s.includes(sub)`. -/
def jsIncludes (s sub : String) : Bool := decide (sub.toList <:+: s.toList)

/-- JS `s.startsWith(pat)`. -/
def jsStartsWith (s pat : String) : Bool := decide (pat.toList <+: s.toList)

/-- JS `s.endsWith(pat)`. -/
def jsEndsWith (s pat : String) : Bool := decide (pat.toList <:+ s.toList)

/-- JS `s.trim()`. -/
def jsTrim (s : String) : String :=
  String.mk (((s.toList.dropWhile Char.isWhitespace).reverse.dropWhile
    Char.isWhitespace).reverse)

/-- JS `s.toLowerCase()` (ASCII letters, which is all the compared literals use). -/
def jsToLower (s : String) : String := String.mk (s.toList.map Char.toLower)

/-! ## Errors raised by the embedded JavaScript -/

/-- The error values thrown/attached by the embedded code.  Carried payloads
(messages, HTTP codes) are kept only where a claim needs to tell errors
apart. -/
inductive JsError where
  | validation
  | apiKeyMissing
  | apiKeyPlaceholder
  | network
  | httpStatus (code : Nat)
  | jsonParse
  | apiNotOk
  | unexpectedStructure
  | maxRetries
  | sourcifyFailed (code : Nat)
deriving DecidableEq

/-! ## Block explorer client (src/core/blockExplorer.js) -/

/-- The `status`/`message` envelope of an Etherscan-style response
(blockExplorer.js:12-25).  `α` is the type of `data.result`
(a string for `getabi`). -/
structure ApiEnvelope (α : Type) where
  status : Option String
  message : Option String
  result : α
deriving DecidableEq

/-- One scripted HTTP exchange as seen by `fetchWithRetry`
(blockExplorer.js:5-42): the fetch throws, the 2xx body fails to parse as
JSON, a 404, another non-2xx status, or a parsed envelope. -/
inductive HttpResp (α : Type) where
  | netThrow
  | okJsonThrows
  | notFound
  | httpErr (code : Nat)
  | ok (body : ApiEnvelope α)
deriving DecidableEq

/-- What a single loop iteration of `fetchWithRetry` does with the response:
return a value (`data.result`, or null for 404), or fail — by throwing
directly or via the `NOTOK` branch.  All failures are caught by the
`catch` on line 33 and retried unless this was the last attempt. -/
inductive AttemptRes (α : Type) where
  | done (v : Option α)
  | fail (e : JsError)
deriving DecidableEq

/-- One iteration of the `fetchWithRetry` loop (blockExplorer.js:7-32):
404 → null; `status=='0' && message=='NOTOK'` → rate-limit error (retryable);
`message=='OK' || status=='1'` → `data.result`; anything else throws. -/
def attemptOutcome {α : Type} : HttpResp α → AttemptRes α
  | .netThrow => .fail .network
  | .okJsonThrows => .fail .jsonParse
  | .notFound => .done none
  | .httpErr c => .fail (.httpStatus c)
  | .ok b =>
    if b.status = some "0" ∧ b.message = some "NOTOK" then .fail .apiNotOk
    else if b.message = some "OK" ∨ b.status = some "1" then .done (some b.result)
    else .fail .unexpectedStructure

/-- The retry loop of `fetchWithRetry`: `i` is the current attempt index,
`remaining` the number of attempts left (`retries - i`).  On failure at the
last attempt the error is rethrown; otherwise the loop sleeps
`delay * 2^i` ms (collected in the returned list) and retries.  The
`remaining = 0` case is the `Max retries reached` throw on line 41,
reachable only when `retries = 0`. -/
def fetchRetryGo {α : Type} (script : Nat → HttpResp α) (delay : Nat) :
    Nat → Nat → Except JsError (Option α) × List Nat
  | _, 0 => (.error .maxRetries, [])
  | i, r + 1 =>
    match attemptOutcome (script i) with
    | .done v => (.ok v, [])
    | .fail e =>
      if r = 0 then (.error e, [])
      else
        let rest := fetchRetryGo script delay (i + 1) r
        (rest.1, delay * 2 ^ i :: rest.2)

/-- `fetchWithRetry(url, options, retries, delay)` (blockExplorer.js:5-42)
over a scripted sequence of HTTP responses.  Returns the outcome
(`data.result` on success, `null` on 404, a thrown error otherwise) together
with the list of backoff delays slept. -/
def fetchWithRetry {α : Type} (script : Nat → HttpResp α) (retries delay : Nat) :
    Except JsError (Option α) × List Nat :=
  fetchRetryGo script delay 0 retries

/-- The sentinel string an Etherscan-style explorer returns for an
unverified contract (blockExplorer.js:83). -/
def sentinelNotVerified : String := "Contract source code not verified"

/-- A chain configuration as read by blockExplorer.js: `explorerApiUrl` may
be absent. -/
structure ChainCfg where
  id : String
  explorerApiUrl : Option String
deriving DecidableEq

/-- `BlockExplorerService.getAbiFromExplorer(address, chain)`
(blockExplorer.js:56-100).  `apiKey` is the `getApiKey(chain.id)` result.
Missing URL or key → null; the default `fetchWithRetry(url)` call uses
`retries = 3, delay = 1000`; every thrown error is caught on line 96 and
turned into null; the sentinel string and the empty string yield null;
a result that does not trim to `[...]` yields null. -/
def getAbiFromExplorer (chain : ChainCfg) (apiKey : Option String)
    (script : Nat → HttpResp String) : Option String :=
  match chain.explorerApiUrl with
  | none => none
  | some _ =>
    match apiKey with
    | none => none
    | some _ =>
      match (fetchWithRetry script 3 1000).1 with
      | .error _ => none
      | .ok none => none
      | .ok (some abiString) =>
        if abiString ≠ "" ∧ abiString ≠ sentinelNotVerified then
          if jsStartsWith (jsTrim abiString) "[" ∧ jsEndsWith (jsTrim abiString) "]" then
            some abiString
          else none
        else none

/-! ## Sourcify client (src/core/sourcify.js) -/

/-- The `output` object of a Sourcify metadata document: the compiler ABI
lives under `output.abi` (verification.js:39). -/
structure SourcifyOutput where
  abi : Option (List AbiEntry)
deriving DecidableEq

/-- A Sourcify metadata document, as far as the resolver reads it. -/
structure Metadata where
  output : Option SourcifyOutput
deriving DecidableEq

/-- One scripted HTTP exchange as seen by `#fetchSourcifyData`
(sourcify.js:10-38): network throw, 404, other non-2xx, a 2xx response whose
content-type is not `application/json`, a 2xx JSON body that fails to parse,
or a parsed JSON value (`none` = a falsy JSON value such as `null`). -/
inductive SourcifyHttpResp where
  | netThrow
  | notFound
  | httpErr (code : Nat)
  | okNonJson
  | okJsonThrows
  | okJson (v : Option Metadata)
deriving DecidableEq

/-- `#fetchSourcifyData(url)` (sourcify.js:10-38): 2xx JSON → parsed body
(parse failure rethrown); 2xx non-JSON → null (treated as a miss); 404 →
null; other non-2xx → throw; network error → rethrow. -/
def fetchSourcifyData : SourcifyHttpResp → Except JsError (Option Metadata)
  | .netThrow => .error .network
  | .notFound => .ok none
  | .httpErr c => .error (.sourcifyFailed c)
  | .okNonJson => .ok none
  | .okJsonThrows => .error .jsonParse
  | .okJson v => .ok v

/-- The result object of `SourcifyService.verifyContract`
(sourcify.js:54-79): `{match, data?, error?}`.  The JS `match` field is named
`matchKind` because `match` is a Lean keyword. -/
structure SourcifyResult where
  matchKind : String
  data : Option Metadata
  error : Option JsError
deriving DecidableEq

/-- The two Sourcify repository endpoints. -/
inductive SourcifyEndpoint where
  | fullMatch
  | partialMatch
deriving DecidableEq

/-- The scripted responses of the two Sourcify endpoints for one lookup. -/
structure SourcifyEnv where
  fullResp : SourcifyHttpResp
  partialResp : SourcifyHttpResp
deriving DecidableEq

/-- `SourcifyService.verifyContract(address, chainId)` (sourcify.js:57-79),
instrumented with the list of endpoints actually queried: try the full-match
endpoint; on a truthy body return `full`; otherwise try the partial-match
endpoint; on a truthy body return `partial`; if both missed return `none`;
any throw is caught and returned as `match: 'error'` with the error
attached. -/
def verifyContract (env : SourcifyEnv) : SourcifyResult × List SourcifyEndpoint :=
  match fetchSourcifyData env.fullResp with
  | .error e => (⟨"error", none, some e⟩, [.fullMatch])
  | .ok (some d) => (⟨"full", some d, none⟩, [.fullMatch])
  | .ok none =>
    match fetchSourcifyData env.partialResp with
    | .error e => (⟨"error", none, some e⟩, [.fullMatch, .partialMatch])
    | .ok (some d) => (⟨"partial", some d, none⟩, [.fullMatch, .partialMatch])
    | .ok none => (⟨"none", none, none⟩, [.fullMatch, .partialMatch])

/-! ## Verification resolver (src/core/verification.js) -/

/-- The `deployment` sub-object of the resolver's response
(verification.js:25, 46-49, 121-124). -/
structure VDeployment where
  txHash : Option String
  blockNumber : Option Nat
  source : String
deriving DecidableEq

/-- The `data` sub-object of the resolver's response: `abi`, `metadata`,
`sourceCode` (verification.js:15, 38-41, 78, 105).  Source code is a list of
`(filename, content)` pairs. -/
structure VData where
  abi : Option (List AbiEntry)
  metadata : Option Metadata
  sourceCode : Option (List (String × String))
deriving DecidableEq

/-- The result object of `VerificationService.getVerificationData`
(verification.js:21-27). -/
structure VerificationResponse where
  source : String
  status : String
  data : VData
  deployment : VDeployment
  error : Option JsError
deriving DecidableEq

/-- The initial response object (verification.js:21-27). -/
def initialResponse : VerificationResponse :=
  { source := "none", status := "unverified",
    data := ⟨none, none, none⟩,
    deployment := ⟨none, none, "unknown"⟩,
    error := none }

/-- The deployment-info record returned by
`SourcifyService.getDeploymentInfo` (sourcify.js:87-104): its fields are
named `deploymentBlock` / `transactionHash`. -/
structure SourcifyDeploymentInfo where
  deploymentBlock : Option Nat
  transactionHash : Option String
deriving DecidableEq

/-- verification.js:44 guards on `sourcifyDeployment?.txHash ||
sourcifyDeployment?.blockNumber`, but `getDeploymentInfo` returns fields
named `transactionHash` / `deploymentBlock` (sourcify.js:93-101); both reads
are `undefined`, so the guard is always falsy and the Sourcify deployment
info is never adopted. -/
def sourcifyDeploymentAdopted (_d : Option SourcifyDeploymentInfo) : Bool := false

/-- `{txHash, blockNumber}` as returned by
`BlockExplorerService.getContractCreationTx` (blockExplorer.js:143-146). -/
structure CreationInfo where
  txHash : Option String
  blockNumber : Option Nat
deriving DecidableEq

/-- The explorer operations `getVerificationData` can invoke, recorded as a
trace (claim C1 requires that none is invoked on a registry error). -/
inductive ExplorerCall where
  | getAbi
  | getSourceCode
  | getCreationTx
deriving DecidableEq

/-- The service-call outcomes one `getVerificationData` run can observe.
`sourcifyCall` is the awaited `sourcifyService.verifyContract` result —
`.error` models the promise rejecting (the `catch` on verification.js:60).
`parseAbi` models `JSON.parse` on an ABI string (`none` = throws).  The
explorer fields model the awaited results of the three
`blockExplorerService` operations. -/
structure VerificationEnv where
  sourcifyCall : Except JsError SourcifyResult
  sourcifyDeployment : Option SourcifyDeploymentInfo
  parseAbi : String → Option (List AbiEntry)
  explorerAbi : Except JsError (Option String)
  explorerSource : Except JsError (Option (List (String × String)))
  explorerCreation : Except JsError (Option CreationInfo)

/-- Step 2 of `getVerificationData` (verification.js:71-96): the block
explorer ABI fallback, entered when the status is still `unverified` or no
ABI was extracted from the Sourcify metadata.  Returns the updated response,
the `fetchedAbiFromExplorer` flag, and the explorer calls made. -/
def explorerAbiStep (env : VerificationEnv) (resp : VerificationResponse) :
    VerificationResponse × Bool × List ExplorerCall :=
  if resp.status = "unverified" ∨ resp.data.abi = none then
    let resp1 := { resp with source := "blockExplorer" }
    match env.explorerAbi with
    | .error e =>
      ({ resp1 with status := "error", error := some e }, false, [.getAbi])
    | .ok none =>
      ({ resp1 with source := "none" }, false, [.getAbi])
    | .ok (some abiString) =>
      match env.parseAbi abiString with
      | some l =>
        ({ resp1 with data := { resp1.data with abi := some l }, status := "verified" },
         true, [.getAbi])
      | none =>
        ({ resp1 with status := "error", error := some .jsonParse }, false, [.getAbi])
  else (resp, false, [])

/-- Step 2b of `getVerificationData` (verification.js:99-112): fetch source
code from the explorer, only when the ABI came from the explorer; every
failure is caught and ignored. -/
def explorerSourceStep (env : VerificationEnv) (resp : VerificationResponse)
    (fetchedAbiFromExplorer : Bool) : VerificationResponse × List ExplorerCall :=
  if fetchedAbiFromExplorer then
    match env.explorerSource with
    | .ok (some sources) =>
      ({ resp with data := { resp.data with sourceCode := some sources } }, [.getSourceCode])
    | .ok none => (resp, [.getSourceCode])
    | .error _ => (resp, [.getSourceCode])
  else (resp, [])

/-- Step 3 of `getVerificationData` (verification.js:115-131): best-effort
deployment lookup via the explorer when the deployment source is still
`unknown`; a result with a txHash or block number is adopted with
`source := 'blockExplorer'`; failures are caught and ignored. -/
def explorerDeploymentStep (env : VerificationEnv) (resp : VerificationResponse) :
    VerificationResponse × List ExplorerCall :=
  if resp.deployment.source = "unknown" then
    match env.explorerCreation with
    | .ok (some d) =>
      if d.txHash.isSome ∨ d.blockNumber.isSome then
        ({ resp with deployment := ⟨d.txHash, d.blockNumber, "blockExplorer"⟩ },
         [.getCreationTx])
      else (resp, [.getCreationTx])
    | .ok none => (resp, [.getCreationTx])
    | .error _ => (resp, [.getCreationTx])
  else (resp, [])

/-- Steps 2–3 of `getVerificationData`, chained (verification.js:68-133). -/
def explorerSteps (env : VerificationEnv) (resp : VerificationResponse) :
    VerificationResponse × List ExplorerCall :=
  let s2 := explorerAbiStep env resp
  let s2b := explorerSourceStep env s2.1 s2.2.1
  let s3 := explorerDeploymentStep env s2b.1
  (s3.1, s2.2.2 ++ s2b.2 ++ s3.2)

/-- The optional-chained read `sourcifyResult.data?.output?.abi`
(verification.js:39): the ABI embedded in a Sourcify metadata document, when
every link of the chain is present. -/
def metadataAbi : Option Metadata → Option (List AbiEntry)
  | some d =>
    match d.output with
    | some o => o.abi
    | none => none
  | none => none

/-- `VerificationService.getVerificationData(address, chain)`
(verification.js:20-134), instrumented with the trace of explorer calls.
Step 1 (lines 29-66): query Sourcify; a `full`/`partial` match sets the
status and extracts metadata/ABI (the `getDeploymentInfo` guard on line 44
never fires, see `sourcifyDeploymentAdopted`); `match=='error'` or a thrown
error returns immediately with `status='error', source='sourcify'`; a miss
resets `source` to `'none'`.  Steps 2-3 are `explorerSteps`. -/
def getVerificationData (env : VerificationEnv) :
    VerificationResponse × List ExplorerCall :=
  match env.sourcifyCall with
  | .error e =>
    ({ initialResponse with source := "sourcify", status := "error", error := some e }, [])
  | .ok r =>
    if r.matchKind = "full" ∨ r.matchKind = "partial" then
      let abi0 : Option (List AbiEntry) := metadataAbi r.data
      let resp1 : VerificationResponse :=
        { initialResponse with
          source := "sourcify", status := r.matchKind,
          data := ⟨abi0, r.data, none⟩ }
      let resp2 :=
        if sourcifyDeploymentAdopted env.sourcifyDeployment then
          { resp1 with deployment := ⟨none, none, "sourcify"⟩ }
        else resp1
      explorerSteps env resp2
    else if r.matchKind = "error" then
      ({ initialResponse with source := "sourcify", status := "error", error := r.error }, [])
    else
      explorerSteps env { initialResponse with source := "none" }

/-! ## Contract info (contractInfo.js) -/

/-- A normalised event input as produced by `extractEventSignatures`
(contractInfo.js:414-418) and by the hardcoded common-event table. -/
structure EventInput where
  name : String
  type : String
  indexed : Bool
deriving DecidableEq

/-- An event-signature record (contractInfo.js:410-420). -/
structure EventSig where
  name : String
  signature : String
  signatureHash : String
  inputs : List EventInput
  anonymous : Bool
deriving DecidableEq

/-- `getCommonNFTEventSignatures(contractAddress)` (contractInfo.js:16-97):
three hardcoded ERC-721-style events, plus three CryptoPunks events when the
lowercased address is the hardcoded CryptoPunks address. -/
def getCommonNFTEventSignatures (contractAddress : String) : List EventSig :=
  let commonEvents : List EventSig :=
    [{ name := "Transfer",
       signature := "Transfer(address,address,uint256)",
       signatureHash := "0xddf252ad1be2c89b69c2b068fc378daa952ba7f163c4a11628f55a4df523b3ef",
       inputs := [⟨"from", "address", true⟩, ⟨"to", "address", true⟩,
                  ⟨"tokenId", "uint256", true⟩],
       anonymous := false },
     { name := "Approval",
       signature := "Approval(address,address,uint256)",
       signatureHash := "0x8c5be1e5ebec7d5bd14f71427d1e84f3dd0314c0f7b2291e5b200ac8c7c3b925",
       inputs := [⟨"owner", "address", true⟩, ⟨"approved", "address", true⟩,
                  ⟨"tokenId", "uint256", true⟩],
       anonymous := false },
     { name := "ApprovalForAll",
       signature := "ApprovalForAll(address,address,bool)",
       signatureHash := "0x17307eab39ab6107e8899845ad3d59bd9653f200f220920489ca2b5937696c31",
       inputs := [⟨"owner", "address", true⟩, ⟨"operator", "address", true⟩,
                  ⟨"approved", "bool", false⟩],
       anonymous := false }]
  if jsToLower contractAddress = "0xb47e3cd837ddf8e4c57f05d70ab865de6e193bbb" then
    commonEvents ++
      [{ name := "Assign",
         signature := "Assign(address,uint256)",
         signatureHash := "0x8a0e37b73a0d9c82e205d4d1a3ff3d0b57ce5f4d7bccf6bac03336dc101cb7ba",
         inputs := [⟨"to", "address", true⟩, ⟨"punkIndex", "uint256", false⟩],
         anonymous := false },
       { name := "PunkTransfer",
         signature := "PunkTransfer(address,address,uint256)",
         signatureHash := "0x05af636b70da6819000c49f85b21fa82081c632069bb626f30932034099107d8",
         inputs := [⟨"from", "address", true⟩, ⟨"to", "address", true⟩,
                    ⟨"punkIndex", "uint256", false⟩],
         anonymous := false },
       { name := "PunkBought",
         signature := "PunkBought(uint256,uint256,address,address)",
         signatureHash := "0x58e5d5a525e3b40bc15abaa38b5882678db1ee68befd2f60bafe3a7fd06db9e3",
         inputs := [⟨"punkIndex", "uint256", false⟩, ⟨"value", "uint256", false⟩,
                    ⟨"fromAddress", "address", true⟩, ⟨"toAddress", "address", true⟩],
         anonymous := false }]
  else commonEvents

/-- `extractEventSignatures(abi)` (contractInfo.js:401-422).  `ethersId`
models `ethers.id` (keccak-256 of the signature string); the code keeps
`ethers.id(signature).slice(0, 10)`. -/
def extractEventSignatures (ethersId : String → String) (abi : List AbiEntry) :
    List EventSig :=
  (abi.filter (fun item => decide (item.type = "event"))).map fun event =>
    let ins := event.inputs.getD []
    let types := ins.map (fun i => i.type)
    let signature := event.name ++ "(" ++ String.intercalate "," types ++ ")"
    { name := event.name,
      signature := signature,
      signatureHash := (ethersId signature).take 10,
      inputs := ins.map (fun i => ⟨i.name, i.type, i.indexed.getD false⟩),
      anonymous := event.anonymous }

/-- One element of the `getsourcecode` result array (contractInfo.js:185).
Absent JS fields are modelled as the empty string. -/
structure ContractData where
  ABI : String
  SourceCode : String
  Implementation : String
  ContractName : String
  CompilerVersion : String
deriving DecidableEq

/-- The `getsourcecode` response envelope as read by `getContractInfo`
(contractInfo.js:162-185).  `result := none` models a `null` / non-array
`data.result`. -/
structure SourceCodeResponse where
  status : String
  message : String
  result : Option (List ContractData)
deriving DecidableEq

/-- Outcome of one `fetch` of the explorer API in contractInfo.js: the fetch
throws (line 141), a non-2xx status (line 147), an unparseable JSON body
(line 156), or a parsed envelope. -/
inductive JsFetchOutcome where
  | netThrow
  | httpNotOk (code : Nat)
  | jsonThrows
  | ok (data : SourceCodeResponse)
deriving DecidableEq

/-- The external collaborators of one `getContractInfo` run: the two
explorer fetches (proxy and implementation address), `ethers.isAddress`,
`JSON.parse` on ABI strings (`none` = throws), `ethers.id`, and the
`BLOCKSCANNER_URL` base (with its default already applied). -/
structure ContractInfoEnv where
  mainFetch : JsFetchOutcome
  implFetch : JsFetchOutcome
  isAddress : String → Bool
  parseAbi : String → Option (List AbiEntry)
  ethersId : String → String
  blockScannerWebsiteUrl : String

/-- The object returned by `getContractInfo` (contractInfo.js:307-328).
`generateSubgraphTemplates` records whether the closure field is non-null. -/
structure ContractInfoResult where
  isVerified : Bool
  abi : Option (List AbiEntry)
  contractName : String
  compiler : String
  sourceCode : String
  proxy : Bool
  implementation : String
  implementationAbi : Option (List AbiEntry)
  combinedAbi : Option (List AbiEntry)
  implementationVerified : Bool
  implementationContractName : String
  eventSignatures : List EventSig
  explorerUrl : String
  sourceUrl : Option String
  generateSubgraphTemplates : Bool

/-- The limited object returned when the explorer reports no contract data
(contractInfo.js:171-182); fields the literal does not set are `undefined`
(`none`/`false` here). -/
def minimalContractInfo (env : ContractInfoEnv) (contractAddress : String) :
    ContractInfoResult :=
  { isVerified := false, abi := none, contractName := "Unverified Contract",
    compiler := "", sourceCode := "", proxy := false, implementation := "",
    implementationAbi := none, combinedAbi := none, implementationVerified := false,
    implementationContractName := "",
    eventSignatures := getCommonNFTEventSignatures contractAddress,
    explorerUrl := env.blockScannerWebsiteUrl ++ "/address/" ++ contractAddress,
    sourceUrl := none,
    generateSubgraphTemplates := false }

/-- Proxy detection (contractInfo.js:199-236), first match wins: a non-empty
explorer `Implementation` field (the only tier yielding an implementation
address), a `delegatecall` occurrence in the source text, or known
upgradeable-proxy markers.  Returns `(isProxy, implementation)`. -/
def detectProxy (contractData : ContractData) : Bool × String :=
  if contractData.Implementation ≠ "" then (true, contractData.Implementation)
  else if jsIncludes contractData.SourceCode "delegatecall" then (true, "")
  else if jsIncludes contractData.SourceCode "upgradeable" ∨
      jsIncludes contractData.SourceCode "ERC1967Proxy" ∨
      jsIncludes contractData.SourceCode "TransparentUpgradeableProxy" then (true, "")
  else (false, "")

/-- The implementation-resolution outcome (contractInfo.js:238-241 local
variables). -/
structure ImplResult where
  implementationAbi : Option (List AbiEntry)
  combinedAbi : Option (List AbiEntry)
  implementationVerified : Bool
  implementationContractName : String
deriving DecidableEq

/-- The initial values of contractInfo.js:238-241. -/
def emptyImplResult : ImplResult := ⟨none, none, false, ""⟩

/-- The implementation fetch block (contractInfo.js:246-290): every failure
(network throw, non-2xx, bad JSON, API error envelope, unverified or
unparseable implementation ABI) leaves the initial values; only a parsed
implementation ABI sets `implementationVerified` and builds
`combinedAbi = combineAbis(abi, implementationAbi)`. -/
def fetchImplementation (env : ContractInfoEnv) (abi : Option (List AbiEntry)) :
    ImplResult :=
  match env.implFetch with
  | .netThrow => emptyImplResult
  | .httpNotOk _ => emptyImplResult
  | .jsonThrows => emptyImplResult
  | .ok implData =>
    if implData.status = "1" then
      match implData.result with
      | some (implContractData :: _) =>
        let implName := implContractData.ContractName
        if implContractData.ABI ≠ "" ∧ implContractData.ABI ≠ sentinelNotVerified then
          match env.parseAbi implContractData.ABI with
          | some implementationAbi =>
            { implementationAbi := some implementationAbi,
              combinedAbi := combineAbis abi (some implementationAbi),
              implementationVerified := true,
              implementationContractName := implName }
          | none => { emptyImplResult with implementationContractName := implName }
        else { emptyImplResult with implementationContractName := implName }
      | some [] => emptyImplResult
      | none => emptyImplResult
    else emptyImplResult

/-- The event-signature extraction guard (contractInfo.js:294-298):
signatures are extracted only when an ABI (combined or proxy) is
available. -/
def extractedEventSigs (ethersId : String → String) :
    Option (List AbiEntry) → List EventSig
  | some l => extractEventSignatures ethersId l
  | none => []

/-- `getContractInfo(rpcUrl, contractAddress, explorerApiKey, blockExplorerUrl)`
(contractInfo.js:108-335).  Validation errors and main-fetch failures throw;
a missing result array returns the limited object; otherwise the ABI is
parsed when verified, proxies are detected, the implementation is resolved
when its address is syntactically valid, and event signatures are extracted
from the combined ABI (falling back to the proxy ABI, then to the hardcoded
common NFT events when none are found). -/
def getContractInfo (env : ContractInfoEnv) (contractAddress explorerApiKey : String) :
    Except JsError ContractInfoResult :=
  if contractAddress = "" ∨ ¬ env.isAddress contractAddress then .error .validation
  else if explorerApiKey = "" then .error .apiKeyMissing
  else if jsIncludes explorerApiKey "your-" ∨ explorerApiKey = "your-key" then
    .error .apiKeyPlaceholder
  else
    match env.mainFetch with
    | .netThrow => .error .network
    | .httpNotOk c => .error (.httpStatus c)
    | .jsonThrows => .error .jsonParse
    | .ok data =>
      match data.result with
      | none => .ok (minimalContractInfo env contractAddress)
      | some [] => .ok (minimalContractInfo env contractAddress)
      | some (contractData :: _) =>
        let isVerified := contractData.ABI ≠ sentinelNotVerified
        let abi : Option (List AbiEntry) :=
          if isVerified ∧ contractData.ABI ≠ "" then env.parseAbi contractData.ABI
          else none
        let pd := detectProxy contractData
        let implementation := pd.2
        let ir :=
          if pd.1 ∧ implementation ≠ "" ∧ env.isAddress implementation then
            fetchImplementation env abi
          else emptyImplResult
        let abiToUseForEvents := ir.combinedAbi.orElse (fun _ => abi)
        let extracted := extractedEventSigs env.ethersId abiToUseForEvents
        let eventSignatures :=
          if extracted.length = 0 then getCommonNFTEventSignatures contractAddress
          else extracted
        .ok { isVerified := isVerified,
              abi := abi,
              contractName := contractData.ContractName,
              compiler := contractData.CompilerVersion,
              sourceCode := contractData.SourceCode,
              proxy := pd.1,
              implementation := implementation,
              implementationAbi := ir.implementationAbi,
              combinedAbi := ir.combinedAbi,
              implementationVerified := ir.implementationVerified,
              implementationContractName := ir.implementationContractName,
              eventSignatures := eventSignatures,
              explorerUrl := env.blockScannerWebsiteUrl ++ "/address/" ++ contractAddress,
              sourceUrl :=
                if isVerified then
                  some (env.blockScannerWebsiteUrl ++ "/address/" ++ contractAddress ++ "#code")
                else none,
              generateSubgraphTemplates := isVerified }

/-! ## Concrete fixtures used by witnesses and counterexamples -/

/-- A parameterless function entry `foo()`. -/
def fooFn : AbiEntry := ⟨"function", "foo", some [], false⟩

/-- A one-parameter function entry `upgradeTo(address)`. -/
def upgradeToFn : AbiEntry := ⟨"function", "upgradeTo", some [⟨"impl", "address", none⟩], false⟩

/-- A parameterless event entry `Bar()`. -/
def barEvt : AbiEntry := ⟨"event", "Bar", some [], false⟩

/-- A registry lookup result carrying `match: 'error'` with a network error
attached. -/
def sourcifyErrorResult : SourcifyResult := ⟨"error", none, some .network⟩

/-- A Sourcify metadata document whose `output.abi` is `[foo()]`. -/
def metadataWithAbi : Metadata := ⟨some ⟨some [fooFn]⟩⟩

/-- A Sourcify metadata document with no `output` object, hence no embedded
ABI. -/
def metadataNoOutput : Metadata := ⟨none⟩

/-- Resolver environment: the registry reports `match: 'error'`. -/
def envC1 : VerificationEnv :=
  { sourcifyCall := .ok sourcifyErrorResult, sourcifyDeployment := none,
    parseAbi := fun _ => none, explorerAbi := .ok none,
    explorerSource := .ok none, explorerCreation := .ok none }

/-- Resolver environment: full registry match with an embedded ABI. -/
def envC2w : VerificationEnv :=
  { sourcifyCall := .ok ⟨"full", some metadataWithAbi, none⟩, sourcifyDeployment := none,
    parseAbi := fun _ => none, explorerAbi := .ok none,
    explorerSource := .ok none, explorerCreation := .ok none }

/-- Resolver environment: full registry match whose payload carries no ABI,
and the explorer has no ABI either. -/
def envC2cex : VerificationEnv :=
  { sourcifyCall := .ok ⟨"full", some metadataNoOutput, none⟩, sourcifyDeployment := none,
    parseAbi := fun _ => none, explorerAbi := .ok none,
    explorerSource := .ok none, explorerCreation := .ok none }

/-- Resolver environment for the C3 counterexample: full registry match with
no embedded ABI, explorer ABI absent. -/
def envC3cex : VerificationEnv :=
  { sourcifyCall := .ok ⟨"full", some ⟨some ⟨none⟩⟩, none⟩, sourcifyDeployment := none,
    parseAbi := fun _ => none, explorerAbi := .ok none,
    explorerSource := .ok none, explorerCreation := .ok none }

/-- Resolver environment for the C3 witness: full registry match carrying
`[foo()]`. -/
def envC3w : VerificationEnv :=
  { sourcifyCall := .ok ⟨"full", some ⟨some ⟨some [fooFn]⟩⟩, none⟩, sourcifyDeployment := none,
    parseAbi := fun _ => none, explorerAbi := .ok none,
    explorerSource := .ok none, explorerCreation := .ok none }

/-- Resolver environment for the C4 witness: registry miss, explorer reports
the contract unverified. -/
def envC4w : VerificationEnv :=
  { sourcifyCall := .ok ⟨"none", none, none⟩, sourcifyDeployment := none,
    parseAbi := fun _ => none, explorerAbi := .ok none,
    explorerSource := .ok none, explorerCreation := .ok none }

/-- A mainnet-style chain configuration with an explorer API URL. -/
def chainMainnet : ChainCfg := ⟨"1", some "https://api.etherscan.io/api"⟩

/-- Explorer script: every request answers `OK` with the unverified-contract
sentinel as `result`. -/
def scriptSentinel : Nat → HttpResp String :=
  fun _ => .ok ⟨some "1", some "OK", sentinelNotVerified⟩

/-- An Etherscan-style rate-limit envelope: `status: '0'`, `message: 'NOTOK'`. -/
def notokBody : ApiEnvelope String := ⟨some "0", some "NOTOK", "Max rate limit reached"⟩

/-- Explorer script whose every response is the NOTOK rate-limit envelope. -/
def scriptNotok : Nat → HttpResp String := fun _ => .ok notokBody

/-- Explorer script: HTTP 429 twice, then a successful OK envelope. -/
def script429 : Nat → HttpResp String :=
  fun i => if i < 2 then .httpErr 429 else .ok ⟨some "1", some "OK", "[]"⟩

/-- An unverified proxy contract-data row pointing at an implementation
address. -/
def cdProxyUnverified : ContractData :=
  ⟨sentinelNotVerified, "", "0xdddd000000000000000000000000000000000000", "Proxy", ""⟩

/-- A verified implementation contract-data row whose ABI string is
`"[impl]"`. -/
def cdImpl : ContractData := ⟨"[impl]", "contract Impl", "", "Impl", ""⟩

/-- An unverified implementation contract-data row. -/
def cdImplUnverified : ContractData := ⟨sentinelNotVerified, "", "", "Impl", ""⟩

/-- Contract-info environment: unverified proxy whose implementation is
verified with ABI `[foo()]`. -/
def envC7 : ContractInfoEnv :=
  { mainFetch := .ok ⟨"1", "OK", some [cdProxyUnverified]⟩,
    implFetch := .ok ⟨"1", "OK", some [cdImpl]⟩,
    isAddress := fun _ => true,
    parseAbi := fun s => if s = "[impl]" then some [fooFn] else none,
    ethersId := fun _ => "",
    blockScannerWebsiteUrl := "https://etherscan.io" }

/-- Contract-info environment: proxy whose implementation is unverified. -/
def envC7w : ContractInfoEnv :=
  { mainFetch := .ok ⟨"1", "OK", some [cdProxyUnverified]⟩,
    implFetch := .ok ⟨"1", "OK", some [cdImplUnverified]⟩,
    isAddress := fun _ => true,
    parseAbi := fun s => if s = "[impl]" then some [fooFn] else none,
    ethersId := fun _ => "",
    blockScannerWebsiteUrl := "https://etherscan.io" }

/-- The `getContractInfo` result in `envC7w` (extracted for the witness). -/
def rC7w : ContractInfoResult :=
  ((getContractInfo envC7w "0xcccc000000000000000000000000000000000000"
      "apikey").toOption).getD
    (minimalContractInfo envC7w "0xcccc000000000000000000000000000000000000")

/-- Contract-info environment: the explorer reports no contract data. -/
def envC10 : ContractInfoEnv :=
  { mainFetch := .ok ⟨"0", "NOTOK", none⟩,
    implFetch := .ok ⟨"0", "NOTOK", none⟩,
    isAddress := fun _ => true,
    parseAbi := fun _ => none,
    ethersId := fun _ => "",
    blockScannerWebsiteUrl := "https://etherscan.io" }

/-- The `getContractInfo` result in `envC10` (extracted for the witness). -/
def rC10 : ContractInfoResult :=
  ((getContractInfo envC10 "0xcccc000000000000000000000000000000000000"
      "apikey").toOption).getD
    (minimalContractInfo envC10 "0xcccc000000000000000000000000000000000000")

/-! ## Lemmas about the `combineAbis` merge loop -/

theorem processList_append (L1 L2 : List AbiEntry) :
    ∀ st, processList st (L1 ++ L2) = processList (processList st L1) L2 := by
  induction L1 with
  | nil => intro st; rfl
  | cons e es ih =>
    intro st
    show processList (addEntry st e) (es ++ L2) = _
    rw [ih]
    rfl

theorem processList_skip (L : List AbiEntry) :
    ∀ st, (∀ e ∈ L, ∃ s, entrySig e = some s ∧ s ∈ st.2) → processList st L = st := by
  induction L with
  | nil => intro st _; rfl
  | cons e es ih =>
    intro st h
    obtain ⟨s, hs, hmem⟩ := h e (List.mem_cons_self e es)
    have hadd : addEntry st e = st := by simp [addEntry, hs, hmem]
    show processList (addEntry st e) es = st
    rw [hadd]
    exact ih st (fun e' he' => h e' (List.mem_cons_of_mem e he'))

theorem processList_spec (L : List AbiEntry) :
    ∀ st : List AbiEntry × List String, ∃ extra : List AbiEntry,
      processList st L = (st.1 ++ extra, st.2 ++ extra.filterMap entrySig) ∧
      (∀ e ∈ extra, ∃ s, entrySig e = some s ∧ s ∈ (processList st L).2) ∧
      processList st extra = processList st L := by
  induction L with
  | nil =>
    intro st
    exact ⟨[], by simp [processList], by simp, rfl⟩
  | cons e es ih =>
    intro st
    rcases hsig : entrySig e with _ | s
    · have hadd : addEntry st e = st := by simp [addEntry, hsig]
      have hstep : processList st (e :: es) = processList st es := by
        show processList (addEntry st e) es = _
        rw [hadd]
      obtain ⟨extra, h1, h2, h3⟩ := ih st
      refine ⟨extra, by rw [hstep]; exact h1, by rw [hstep]; exact h2, ?_⟩
      rw [hstep]; exact h3
    · by_cases hmem : s ∈ st.2
      · have hadd : addEntry st e = st := by simp [addEntry, hsig, hmem]
        have hstep : processList st (e :: es) = processList st es := by
          show processList (addEntry st e) es = _
          rw [hadd]
        obtain ⟨extra, h1, h2, h3⟩ := ih st
        refine ⟨extra, by rw [hstep]; exact h1, by rw [hstep]; exact h2, ?_⟩
        rw [hstep]; exact h3
      · have hadd : addEntry st e = (st.1 ++ [e], st.2 ++ [s]) := by
          simp [addEntry, hsig, hmem]
        have hstep :
            processList st (e :: es) = processList (st.1 ++ [e], st.2 ++ [s]) es := by
          show processList (addEntry st e) es = _
          rw [hadd]
        obtain ⟨extra, h1, h2, h3⟩ := ih (st.1 ++ [e], st.2 ++ [s])
        refine ⟨e :: extra, ?_, ?_, ?_⟩
        · rw [hstep, h1]
          simp [hsig]
        · intro e' he'
          rcases List.mem_cons.mp he' with rfl | hmem'
          · refine ⟨s, hsig, ?_⟩
            rw [hstep, h1]
            simp
          · obtain ⟨s', hs', hmem2⟩ := h2 e' hmem'
            refine ⟨s', hs', ?_⟩
            rw [hstep]
            exact hmem2
        · show processList (addEntry st e) extra = _
          rw [hadd, h3, hstep]

theorem addEntry_nodup (st : List AbiEntry × List String) (e : AbiEntry)
    (h : st.2.Nodup) : (addEntry st e).2.Nodup := by
  rcases hsig : entrySig e with _ | s
  · simpa [addEntry, hsig] using h
  · by_cases hmem : s ∈ st.2
    · simpa [addEntry, hsig, hmem] using h
    · simp [addEntry, hsig, hmem, List.nodup_append, h]

theorem processList_nodup (L : List AbiEntry) :
    ∀ st : List AbiEntry × List String, st.2.Nodup → (processList st L).2.Nodup := by
  induction L with
  | nil => intro st h; exact h
  | cons e es ih =>
    intro st h
    exact ih (addEntry st e) (addEntry_nodup st e h)

theorem addEntry_acc_sigs (st : List AbiEntry × List String) (e : AbiEntry)
    (h : st.2 = st.1.filterMap entrySig) :
    (addEntry st e).2 = (addEntry st e).1.filterMap entrySig := by
  rcases hsig : entrySig e with _ | s
  · simpa [addEntry, hsig] using h
  · by_cases hmem : s ∈ st.2
    · simpa [addEntry, hsig, hmem] using h
    · rw [show addEntry st e = (st.1 ++ [e], st.2 ++ [s]) from by
        simp [addEntry, hsig, hmem]]
      simp [List.filterMap_append, hsig, h]

theorem processList_acc_sigs (L : List AbiEntry) :
    ∀ st : List AbiEntry × List String, st.2 = st.1.filterMap entrySig →
      (processList st L).2 = (processList st L).1.filterMap entrySig := by
  induction L with
  | nil => intro st h; exact h
  | cons e es ih =>
    intro st h
    exact ih (addEntry st e) (addEntry_acc_sigs st e h)

theorem processList_isSome (L : List AbiEntry) :
    ∀ st : List AbiEntry × List String, (∀ e ∈ st.1, (entrySig e).isSome) →
      ∀ e ∈ (processList st L).1, (entrySig e).isSome := by
  induction L with
  | nil => intro st h; exact h
  | cons e es ih =>
    intro st h
    apply ih
    intro e' he'
    rcases hsig : entrySig e with _ | s
    · rw [show addEntry st e = st from by simp [addEntry, hsig]] at he'
      exact h e' he'
    · by_cases hmem : s ∈ st.2
      · rw [show addEntry st e = st from by simp [addEntry, hsig, hmem]] at he'
        exact h e' he'
      · rw [show addEntry st e = (st.1 ++ [e], st.2 ++ [s]) from by
          simp [addEntry, hsig, hmem]] at he'
        rcases List.mem_append.mp he' with h1 | h1
        · exact h e' h1
        · rcases List.mem_singleton.mp h1 with rfl
          simp [hsig]

theorem processList_fresh (L : List AbiEntry) :
    ∀ st : List AbiEntry × List String,
      (L.map entrySig).Nodup → (∀ e ∈ L, (entrySig e).isSome) →
      processList st L =
        (st.1 ++ L.filter (keyFresh st.2),
         st.2 ++ (L.filter (keyFresh st.2)).filterMap entrySig) := by
  induction L with
  | nil => intro st _ _; simp [processList]
  | cons e es ih =>
    intro st hnd hsome
    obtain ⟨s, hsig⟩ := Option.isSome_iff_exists.mp (hsome e (List.mem_cons_self e es))
    have hnd0 : (entrySig e ∉ es.map entrySig) ∧ (es.map entrySig).Nodup :=
      List.nodup_cons.mp hnd
    have hsome' : ∀ e' ∈ es, (entrySig e').isSome :=
      fun e' he' => hsome e' (List.mem_cons_of_mem e he')
    by_cases hmem : s ∈ st.2
    · have hadd : addEntry st e = st := by simp [addEntry, hsig, hmem]
      have hkf : keyFresh st.2 e = false := by simp [keyFresh, hsig, hmem]
      show processList (addEntry st e) es = _
      rw [hadd, ih st hnd0.2 hsome']
      simp [List.filter_cons, hkf]
    · have hadd : addEntry st e = (st.1 ++ [e], st.2 ++ [s]) := by
        simp [addEntry, hsig, hmem]
      have hkf : keyFresh st.2 e = true := by simp [keyFresh, hsig, hmem]
      have hfe : es.filter (keyFresh (st.2 ++ [s])) = es.filter (keyFresh st.2) := by
        apply List.filter_congr
        intro x hx
        obtain ⟨sx, hsx⟩ := Option.isSome_iff_exists.mp (hsome' x hx)
        have hne : sx ≠ s := by
          intro hcc
          apply hnd0.1
          rw [hsig, ← hcc, ← hsx]
          exact List.mem_map_of_mem entrySig hx
        simp [keyFresh, hsx, hne]
      show processList (addEntry st e) es = _
      rw [hadd, ih (st.1 ++ [e], st.2 ++ [s]) hnd0.2 hsome', hfe]
      simp [List.filter_cons, hkf, hsig]

/-! ## Claims C5 and C6 (`combineAbis`) -/

/-- Claim C5, counterexample: `combineAbis` does not keep every
implementation entry — duplicate keys inside the implementation ABI are
collapsed to the first occurrence, so merging `[]` with `[foo(), foo()]`
yields `[foo()]`, not the claimed
"every implementation entry followed by the fresh proxy entries". -/
theorem c5_counterexample :
    combineAbis (some ([] : List AbiEntry)) (some [fooFn, fooFn]) = some [fooFn] ∧
    some [fooFn] ≠
      some ([fooFn, fooFn] ++
        ([] : List AbiEntry).filter (keyFresh ([fooFn, fooFn].filterMap entrySig))) := by
  decide

/-- Claim C5 (amended): provided each input list has entries of recognised
kinds with pairwise-distinct uniqueness keys, `combineAbis` returns all
implementation entries in order, followed by exactly those proxy entries
whose key does not occur among the implementation keys — implementation
definitions win on every key conflict and proxy-only entries remain. -/
theorem c5_combineAbis_key_merge (pA iB : List AbiEntry)
    (hiN : (iB.map entrySig).Nodup) (hiS : ∀ e ∈ iB, (entrySig e).isSome)
    (hpN : (pA.map entrySig).Nodup) (hpS : ∀ e ∈ pA, (entrySig e).isSome) :
    combineAbis (some pA) (some iB) =
      some (iB ++ pA.filter (keyFresh (iB.filterMap entrySig))) := by
  have h1 := processList_fresh iB ([], []) hiN hiS
  have hfi : iB.filter (keyFresh ([] : List String)) = iB := by
    apply List.filter_eq_self.mpr
    intro e he
    obtain ⟨s, hs⟩ := Option.isSome_iff_exists.mp (hiS e he)
    simp [keyFresh, hs]
  rw [hfi] at h1
  have h2 := processList_fresh pA (processList ([], []) iB) hpN hpS
  show some (combineAbisCore pA iB) = _
  unfold combineAbisCore
  rw [h2, h1]
  simp

/-- Witness for `c5_combineAbis_key_merge` at concrete duplicate-free ABIs:
`combineAbis([upgradeTo(address), foo()], [foo(), Bar()])` keeps the
implementation's `foo()` and appends only the fresh `upgradeTo(address)`. -/
theorem c5_combineAbis_key_merge_witness :
    combineAbis (some [upgradeToFn, fooFn]) (some [fooFn, barEvt]) =
      some ([fooFn, barEvt] ++
        [upgradeToFn, fooFn].filter (keyFresh ([fooFn, barEvt].filterMap entrySig))) :=
  c5_combineAbis_key_merge [upgradeToFn, fooFn] [fooFn, barEvt]
    (by decide) (by decide) (by decide) (by decide)

/-- Claim C6: `combineAbis` is idempotent under re-application —
`combineAbis(combineAbis(A,B), B) = combineAbis(A,B)` — and the merged
result has pairwise-distinct uniqueness keys (every kept entry has a key,
and the list of keys has no duplicate). -/
theorem c6_combineAbis_idempotent (A B : List AbiEntry) :
    combineAbis (combineAbis (some A) (some B)) (some B) = combineAbis (some A) (some B) ∧
    ((combineAbisCore A B).filterMap entrySig).Nodup ∧
    ∀ e ∈ combineAbisCore A B, (entrySig e).isSome := by
  obtain ⟨dB, hB1, hB2, _hB3⟩ := processList_spec B ([], [])
  obtain ⟨eA, hA1, _hA2, hA3⟩ := processList_spec A (processList ([], []) B)
  have hcore : combineAbisCore A B = dB ++ eA := by
    unfold combineAbisCore
    rw [hA1, hB1]
    simp
  have hskip : processList (processList ([], []) B) dB = processList ([], []) B :=
    processList_skip dB _ (fun e he => hB2 e he)
  refine ⟨?_, ?_, ?_⟩
  · show some (combineAbisCore (combineAbisCore A B) B) = some (combineAbisCore A B)
    congr 1
    conv_lhs => rw [hcore]
    show (processList (processList ([], []) B) (dB ++ eA)).1 = _
    rw [processList_append dB eA, hskip, hA3, hA1, hB1, hcore]
    simp
  · have h0 : (processList (processList ([], []) B) A).2.Nodup :=
      processList_nodup A _ (processList_nodup B ([], []) (by simp))
    have hacc : (processList (processList ([], []) B) A).2 =
        (processList (processList ([], []) B) A).1.filterMap entrySig :=
      processList_acc_sigs A _ (processList_acc_sigs B ([], []) (by simp))
    show ((processList (processList ([], []) B) A).1.filterMap entrySig).Nodup
    rw [← hacc]
    exact h0
  · show ∀ e ∈ (processList (processList ([], []) B) A).1, (entrySig e).isSome
    exact processList_isSome A _ (processList_isSome B ([], []) (by simp))

/-! ## Lemmas about the verification resolver steps -/

theorem explorerSourceStep_fields (env : VerificationEnv) (resp : VerificationResponse)
    (f : Bool) :
    (explorerSourceStep env resp f).1.status = resp.status ∧
    (explorerSourceStep env resp f).1.source = resp.source ∧
    (explorerSourceStep env resp f).1.data.abi = resp.data.abi ∧
    (explorerSourceStep env resp f).1.error = resp.error := by
  unfold explorerSourceStep
  cases f
  · simp
  · rcases env.explorerSource with e | v
    · simp
    · rcases v with _ | s <;> simp

theorem explorerDeploymentStep_fields (env : VerificationEnv)
    (resp : VerificationResponse) :
    (explorerDeploymentStep env resp).1.status = resp.status ∧
    (explorerDeploymentStep env resp).1.source = resp.source ∧
    (explorerDeploymentStep env resp).1.data.abi = resp.data.abi ∧
    (explorerDeploymentStep env resp).1.error = resp.error := by
  unfold explorerDeploymentStep
  by_cases h : resp.deployment.source = "unknown"
  · rw [if_pos h]
    rcases env.explorerCreation with e | v
    · simp
    · rcases v with _ | d
      · simp
      · by_cases hd : d.txHash.isSome ∨ d.blockNumber.isSome
        · simp [hd]
        · simp [hd]
  · simp [h]

/-- Steps 2b and 3 never touch `status`, `source`, `data.abi` or `error`:
the final response agrees with the ABI-fallback step on those fields. -/
theorem explorerSteps_fields (env : VerificationEnv) (resp : VerificationResponse) :
    (explorerSteps env resp).1.status = (explorerAbiStep env resp).1.status ∧
    (explorerSteps env resp).1.source = (explorerAbiStep env resp).1.source ∧
    (explorerSteps env resp).1.data.abi = (explorerAbiStep env resp).1.data.abi ∧
    (explorerSteps env resp).1.error = (explorerAbiStep env resp).1.error := by
  unfold explorerSteps
  obtain ⟨h1, h2, h3, h4⟩ :=
    explorerDeploymentStep_fields env
      (explorerSourceStep env (explorerAbiStep env resp).1 (explorerAbiStep env resp).2.1).1
  obtain ⟨g1, g2, g3, g4⟩ :=
    explorerSourceStep_fields env (explorerAbiStep env resp).1 (explorerAbiStep env resp).2.1
  exact ⟨h1.trans g1, h2.trans g2, h3.trans g3, h4.trans g4⟩

/-- The resolver's step 1 on a `full`/`partial` registry hit. -/
theorem getVerificationData_hit (env : VerificationEnv) (r : SourcifyResult)
    (hs : env.sourcifyCall = .ok r)
    (hm : r.matchKind = "full" ∨ r.matchKind = "partial") :
    getVerificationData env = explorerSteps env
      { initialResponse with
          source := "sourcify", status := r.matchKind,
          data := ⟨metadataAbi r.data, r.data, none⟩ } := by
  simp only [getVerificationData, hs]
  rw [if_pos hm]
  simp [sourcifyDeploymentAdopted]

/-- The resolver's step 1 on a registry miss. -/
theorem getVerificationData_miss (env : VerificationEnv) (r : SourcifyResult)
    (hs : env.sourcifyCall = .ok r)
    (hm1 : r.matchKind ≠ "full") (hm2 : r.matchKind ≠ "partial")
    (hm3 : r.matchKind ≠ "error") :
    getVerificationData env =
      explorerSteps env { initialResponse with source := "none" } := by
  simp only [getVerificationData, hs]
  rw [if_neg (by simp [hm1, hm2]), if_neg hm3]

/-! ## Claim C1 (registry error aborts without explorer fallback) -/

/-- Claim C1: when the registry lookup returns `match=='error'` or the
lookup throws, `getVerificationData` terminates immediately with
`status='error'`, `source='sourcify'` and the underlying error attached,
and invokes no block-explorer operation (empty explorer-call trace). -/
theorem c1_registry_error_no_fallback (env : VerificationEnv) :
    (∀ e, env.sourcifyCall = .error e →
      getVerificationData env =
        ({ initialResponse with
            source := "sourcify", status := "error", error := some e }, [])) ∧
    (∀ r, env.sourcifyCall = .ok r → r.matchKind = "error" →
      getVerificationData env =
        ({ initialResponse with
            source := "sourcify", status := "error", error := r.error }, [])) := by
  constructor
  · intro e he
    simp [getVerificationData, he]
  · intro r hr hm
    simp [getVerificationData, hr, hm]

/-- Witness: on a concrete `match:'error'` registry result the resolver
returns the error response and makes zero explorer calls. -/
theorem c1_registry_error_no_fallback_witness :
    getVerificationData envC1 =
      ({ initialResponse with
          source := "sourcify", status := "error",
          error := sourcifyErrorResult.error }, []) :=
  (c1_registry_error_no_fallback envC1).2 sourcifyErrorResult rfl rfl

/-! ## Claim C2 (status/source invariant) -/

/-- Claim C2, counterexample: a full registry match whose payload carries no
ABI falls through to the explorer; when the explorer has no ABI either, the
result keeps `status='full'` but has `source='none'` (not `'sourcify'`),
refuting the claimed invariant `status∈(full|partial) → source=registry`. -/
theorem c2_counterexample :
    (getVerificationData envC2cex).1.status = "full" ∧
    (getVerificationData envC2cex).1.source = "none" ∧
    (getVerificationData envC2cex).1.source ≠ "sourcify" := by
  refine ⟨rfl, rfl, by decide⟩

/-- Claim C2 (amended): `status∈(full|partial)` implies
`source ∈ (sourcify|none)` — and `source = 'sourcify'` whenever an ABI is
present; `status='verified'` implies a non-null ABI. -/
theorem c2_status_source_invariant (env : VerificationEnv) :
    ((getVerificationData env).1.status = "full" ∨
        (getVerificationData env).1.status = "partial" →
      (getVerificationData env).1.source = "sourcify" ∨
        (getVerificationData env).1.source = "none") ∧
    ((getVerificationData env).1.status = "full" ∨
        (getVerificationData env).1.status = "partial" →
      (getVerificationData env).1.data.abi ≠ none →
      (getVerificationData env).1.source = "sourcify") ∧
    ((getVerificationData env).1.status = "verified" →
      (getVerificationData env).1.data.abi ≠ none) := by
  rcases hs : env.sourcifyCall with e | r
  · have h : getVerificationData env =
        ({ initialResponse with
            source := "sourcify", status := "error", error := some e }, []) := by
      simp [getVerificationData, hs]
    rw [h]
    refine ⟨?_, ?_, ?_⟩ <;> intro hc <;> simp at hc
  · by_cases hm : r.matchKind = "full" ∨ r.matchKind = "partial"
    · rw [getVerificationData_hit env r hs hm]
      set resp : VerificationResponse :=
        { initialResponse with
            source := "sourcify", status := r.matchKind,
            data := ⟨metadataAbi r.data, r.data, none⟩ } with hresp
      obtain ⟨f1, f2, f3, _f4⟩ := explorerSteps_fields env resp
      rw [f1, f2, f3]
      unfold explorerAbiStep
      by_cases hc : resp.status = "unverified" ∨ resp.data.abi = none
      · rw [if_pos hc]
        rcases env.explorerAbi with e2 | v
        · refine ⟨?_, ?_, ?_⟩ <;> intro hx <;> simp at hx
        · rcases v with _ | s
          · refine ⟨fun _ => Or.inr (by simp), ?_, ?_⟩
            · intro hx habi
              simp only [] at habi
              rcases hc with hc | hc
              · rcases hm with hm | hm <;> simp [hresp, hm] at hc
              · simp [hresp] at hc
                simp [hresp, hc] at habi
            · intro hx
              rcases hm with hm | hm <;> simp [hresp, hm] at hx
          · rcases hp : env.parseAbi s with _ | l <;> simp only [hp]
            · refine ⟨?_, ?_, ?_⟩ <;> intro hx <;> simp at hx
            · refine ⟨?_, ?_, ?_⟩
              · intro hx; simp at hx
              · intro hx; simp at hx
              · intro _; simp
      · rw [if_neg hc]
        push_neg at hc
        refine ⟨fun _ => Or.inl (by rw [hresp]), fun _ _ => by rw [hresp], ?_⟩
        intro hx
        rcases hm with hm | hm <;> simp [hresp, hm] at hx
    · by_cases he : r.matchKind = "error"
      · have h : getVerificationData env =
            ({ initialResponse with
                source := "sourcify", status := "error", error := r.error }, []) := by
          simp [getVerificationData, hs, he]
        rw [h]
        refine ⟨?_, ?_, ?_⟩ <;> intro hc <;> simp at hc
      · push_neg at hm
        rw [getVerificationData_miss env r hs hm.1 hm.2 he]
        set resp : VerificationResponse :=
          { initialResponse with source := "none" } with hresp
        obtain ⟨f1, f2, f3, _f4⟩ := explorerSteps_fields env resp
        rw [f1, f2, f3]
        unfold explorerAbiStep
        have hst : resp.status = "unverified" := by rw [hresp]; rfl
        rw [if_pos (Or.inl hst)]
        rcases env.explorerAbi with e2 | v
        · refine ⟨?_, ?_, ?_⟩ <;> intro hx <;> simp at hx
        · rcases v with _ | s
          · refine ⟨fun _ => Or.inr (by simp), ?_, ?_⟩
            · intro hx _
              simp [hresp, initialResponse] at hx
            · intro hx
              simp [hresp, initialResponse] at hx
          · rcases hp : env.parseAbi s with _ | l <;> simp only [hp]
            · refine ⟨?_, ?_, ?_⟩ <;> intro hx <;> simp at hx
            · refine ⟨?_, ?_, ?_⟩
              · intro hx; simp at hx
              · intro hx; simp at hx
              · intro _; simp

/-- Witness: a concrete full match with an embedded ABI yields
`source='sourcify'` (and a non-null ABI). -/
theorem c2_status_source_invariant_witness :
    (getVerificationData envC2w).1.source = "sourcify" :=
  (c2_status_source_invariant envC2w).2.1 (Or.inl rfl) (by decide)

/-! ## Claim C3 (full match) -/

/-- Claim C3, counterexample: a full registry match whose metadata payload
carries no ABI does not yield `source='sourcify'` with a non-null ABI — when
the explorer has no ABI either, the result is `status='full'`,
`source='none'`, `abi=null`. -/
theorem c3_counterexample :
    envC3cex.sourcifyCall = .ok ⟨"full", some ⟨some ⟨none⟩⟩, none⟩ ∧
    (getVerificationData envC3cex).1.status = "full" ∧
    (getVerificationData envC3cex).1.source = "none" ∧
    (getVerificationData envC3cex).1.data.abi = none :=
  ⟨rfl, rfl, rfl, rfl⟩

/-- Claim C3 (amended): for every address whose registry lookup returns a
full match whose payload embeds an ABI, the resolver returns
`status='full'`, `source='sourcify'`, and that (non-null) ABI. -/
theorem c3_full_match_with_abi (env : VerificationEnv) (r : SourcifyResult)
    (a : List AbiEntry) (hs : env.sourcifyCall = .ok r)
    (hm : r.matchKind = "full") (ha : metadataAbi r.data = some a) :
    (getVerificationData env).1.status = "full" ∧
    (getVerificationData env).1.source = "sourcify" ∧
    (getVerificationData env).1.data.abi = some a := by
  rw [getVerificationData_hit env r hs (Or.inl hm)]
  set resp : VerificationResponse :=
    { initialResponse with
        source := "sourcify", status := r.matchKind,
        data := ⟨metadataAbi r.data, r.data, none⟩ } with hresp
  obtain ⟨f1, f2, f3, _f4⟩ := explorerSteps_fields env resp
  rw [f1, f2, f3]
  have hcond : ¬ (resp.status = "unverified" ∨ resp.data.abi = none) := by
    simp [hresp, hm, ha]
  unfold explorerAbiStep
  rw [if_neg hcond]
  exact ⟨by simp [hresp, hm], by simp [hresp], by simp [hresp, ha]⟩

/-- Witness: a concrete full match embedding `[foo()]` yields
`status='full'`, `source='sourcify'` and that ABI. -/
theorem c3_full_match_with_abi_witness :
    (getVerificationData envC3w).1.status = "full" ∧
    (getVerificationData envC3w).1.source = "sourcify" ∧
    (getVerificationData envC3w).1.data.abi = some [fooFn] :=
  c3_full_match_with_abi envC3w ⟨"full", some ⟨some ⟨some [fooFn]⟩⟩, none⟩ [fooFn]
    rfl rfl rfl

/-! ## Claim C4 (unverified everywhere) -/

/-- Claim C4: with no registry match, when the explorer answers the
ABI query with the unverified-contract sentinel, `getAbiFromExplorer`
returns null rather than raising, and the resolver ends with
`status='unverified'` and no ABI.  (The embedding of both functions is
total: every network failure is a caught value, so no network-level
exception escapes.) -/
theorem c4_unverified_sentinel (chain : ChainCfg) (apiKey : Option String)
    (script : Nat → HttpResp String) (env : VerificationEnv) (r : SourcifyResult)
    (hfetch : (fetchWithRetry script 3 1000).1 = .ok (some sentinelNotVerified))
    (hs : env.sourcifyCall = .ok r) (hm : r.matchKind = "none")
    (habi : env.explorerAbi = .ok (getAbiFromExplorer chain apiKey script)) :
    getAbiFromExplorer chain apiKey script = none ∧
    (getVerificationData env).1.status = "unverified" ∧
    (getVerificationData env).1.data.abi = none := by
  have hnull : getAbiFromExplorer chain apiKey script = none := by
    unfold getAbiFromExplorer
    rcases chain.explorerApiUrl with _ | u
    · rfl
    · rcases apiKey with _ | k
      · rfl
      · rw [hfetch]
        simp
  have hmiss := getVerificationData_miss env r hs
    (by simp [hm]) (by simp [hm]) (by simp [hm])
  rw [hmiss]
  set resp : VerificationResponse :=
    { initialResponse with source := "none" } with hresp
  obtain ⟨f1, _f2, f3, _f4⟩ := explorerSteps_fields env resp
  have hstep : (explorerAbiStep env resp).1.status = resp.status ∧
      (explorerAbiStep env resp).1.data.abi = resp.data.abi := by
    unfold explorerAbiStep
    rw [if_pos (Or.inl (show resp.status = "unverified" by
      simp [hresp, initialResponse]))]
    rw [habi, hnull]
    simp
  refine ⟨hnull, ?_, ?_⟩
  · rw [f1, hstep.1]
    simp [hresp, initialResponse]
  · rw [f3, hstep.2]
    simp [hresp, initialResponse]

/-- Witness: concrete sentinel-answering explorer script and registry-miss
environment. -/
theorem c4_unverified_sentinel_witness :
    getAbiFromExplorer chainMainnet (some "key") scriptSentinel = none ∧
    (getVerificationData envC4w).1.status = "unverified" ∧
    (getVerificationData envC4w).1.data.abi = none :=
  c4_unverified_sentinel chainMainnet (some "key") scriptSentinel envC4w
    ⟨"none", none, none⟩ rfl rfl rfl rfl

/-! ## Claim C8 (Sourcify lookup ordering and error taxonomy) -/

/-- Claim C8: the lookup queries the full-match endpoint first and queries
the partial-match endpoint exactly when the full-match fetch reported
absence; `none` is returned iff both fetches reported absence; a throwing
fetch (malformed JSON, or non-2xx other than 404) yields `match='error'`
with the cause attached — never `'none'`; and a 2xx response with a
non-JSON content type is treated as absence, not an error. -/
theorem c8_lookup_policy (env : SourcifyEnv) :
    ((verifyContract env).2 = [.fullMatch] ∨
      (verifyContract env).2 = [.fullMatch, .partialMatch]) ∧
    (SourcifyEndpoint.partialMatch ∈ (verifyContract env).2 ↔
      fetchSourcifyData env.fullResp = .ok none) ∧
    ((verifyContract env).1.matchKind = "none" ↔
      (fetchSourcifyData env.fullResp = .ok none ∧
        fetchSourcifyData env.partialResp = .ok none)) ∧
    (∀ e, fetchSourcifyData env.fullResp = .error e →
      (verifyContract env).1.matchKind = "error" ∧
      (verifyContract env).1.error = some e) ∧
    (∀ e, fetchSourcifyData env.fullResp = .ok none →
      fetchSourcifyData env.partialResp = .error e →
      (verifyContract env).1.matchKind = "error" ∧
      (verifyContract env).1.error = some e) ∧
    fetchSourcifyData .okNonJson = .ok none ∧
    (∀ c, fetchSourcifyData (.httpErr c) = .error (.sourcifyFailed c)) := by
  rcases hf : fetchSourcifyData env.fullResp with e | v
  · refine ⟨Or.inl (by simp [verifyContract, hf]), by simp [verifyContract, hf],
      by simp [verifyContract, hf], ?_, ?_, rfl, fun c => rfl⟩
    · intro e' he'
      injection he' with h
      subst h
      exact ⟨by simp [verifyContract, hf], by simp [verifyContract, hf]⟩
    · intro e' h1 _h2
      simp at h1
  · rcases v with _ | d
    · rcases hp : fetchSourcifyData env.partialResp with e | w
      · refine ⟨Or.inr (by simp [verifyContract, hf, hp]),
          by simp [verifyContract, hf, hp], by simp [verifyContract, hf, hp],
          ?_, ?_, rfl, fun c => rfl⟩
        · intro e' he'
          simp at he'
        · intro e' _h1 h2
          injection h2 with h
          subst h
          exact ⟨by simp [verifyContract, hf, hp], by simp [verifyContract, hf, hp]⟩
      · rcases w with _ | d2
        · refine ⟨Or.inr (by simp [verifyContract, hf, hp]),
            by simp [verifyContract, hf, hp], by simp [verifyContract, hf, hp],
            ?_, ?_, rfl, fun c => rfl⟩
          · intro e' he'
            simp at he'
          · intro e' _h1 h2
            simp at h2
        · refine ⟨Or.inr (by simp [verifyContract, hf, hp]),
            by simp [verifyContract, hf, hp], by simp [verifyContract, hf, hp],
            ?_, ?_, rfl, fun c => rfl⟩
          · intro e' he'
            simp at he'
          · intro e' _h1 h2
            simp at h2
    · refine ⟨Or.inl (by simp [verifyContract, hf]), by simp [verifyContract, hf],
        by simp [verifyContract, hf], ?_, ?_, rfl, fun c => rfl⟩
      · intro e' he'
        simp at he'
      · intro e' h1 _h2
        simp at h1

/-- Witness: a network throw on the full-match fetch yields `match='error'`
with the network error attached. -/
theorem c8_lookup_policy_witness :
    (verifyContract ⟨.netThrow, .notFound⟩).1.matchKind = "error" ∧
    (verifyContract ⟨.netThrow, .notFound⟩).1.error = some JsError.network :=
  (c8_lookup_policy ⟨.netThrow, .notFound⟩).2.2.2.1 .network rfl

/-! ## Claim C9 (retry policy) -/

theorem delays_shift (delay i0 m : Nat) :
    delay * 2 ^ i0 :: (List.range m).map (fun j => delay * 2 ^ (i0 + 1 + j)) =
      (List.range (m + 1)).map (fun j => delay * 2 ^ (i0 + j)) := by
  rw [List.range_succ_eq_map]
  simp only [List.map_cons, List.map_map, Nat.add_zero]
  congr 1
  congr 1
  funext j
  simp only [Function.comp_apply]
  congr 2
  omega

theorem fetchRetryGo_fail {α : Type} (script : Nat → HttpResp α) (delay : Nat) :
    ∀ (r i0 : Nat) (e : JsError), 1 ≤ r →
      (∀ j, j < r → ∃ e', attemptOutcome (script (i0 + j)) = .fail e') →
      attemptOutcome (script (i0 + (r - 1))) = .fail e →
      fetchRetryGo script delay i0 r =
        (.error e, (List.range (r - 1)).map (fun j => delay * 2 ^ (i0 + j))) := by
  intro r
  induction r with
  | zero => intro i0 e h1; omega
  | succ r' ih =>
    intro i0 e _h1 hall hlast
    rcases Nat.eq_zero_or_pos r' with hr0 | hrpos
    · subst hr0
      have hl : attemptOutcome (script i0) = .fail e := by
        rw [show i0 = i0 + (1 - 1) from by omega]
        exact hlast
      unfold fetchRetryGo
      rw [hl]
      simp
    · obtain ⟨e0, he0⟩ := hall 0 (by omega)
      rw [show i0 + 0 = i0 from rfl] at he0
      have hrec := ih (i0 + 1) e hrpos
        (fun j hj => by
          have h := hall (j + 1) (by omega)
          rwa [show i0 + (j + 1) = i0 + 1 + j from by omega] at h)
        (by
          have h := hlast
          rwa [show i0 + (r' + 1 - 1) = i0 + 1 + (r' - 1) from by omega] at h)
      unfold fetchRetryGo
      rw [he0]
      simp only [if_neg (by omega : ¬ r' = 0)]
      rw [hrec]
      obtain ⟨m, rfl⟩ : ∃ m, r' = m + 1 := ⟨r' - 1, by omega⟩
      simp only [Nat.add_sub_cancel]
      exact congrArg (fun l => (Except.error e, l)) (delays_shift delay i0 m)

theorem fetchRetryGo_succ {α : Type} (script : Nat → HttpResp α) (delay : Nat) :
    ∀ (k i0 r : Nat) (v : Option α), k < r →
      (∀ j, j < k → ∃ e', attemptOutcome (script (i0 + j)) = .fail e') →
      attemptOutcome (script (i0 + k)) = .done v →
      (fetchRetryGo script delay i0 r).1 = .ok v := by
  intro k
  induction k with
  | zero =>
    intro i0 r v hk _hfails hdone
    obtain ⟨r', rfl⟩ : ∃ r', r = r' + 1 := ⟨r - 1, by omega⟩
    rw [show i0 + 0 = i0 from rfl] at hdone
    unfold fetchRetryGo
    rw [hdone]
  | succ k' ih =>
    intro i0 r v hk hfails hdone
    obtain ⟨r', rfl⟩ : ∃ r', r = r' + 1 := ⟨r - 1, by omega⟩
    obtain ⟨e0, he0⟩ := hfails 0 (by omega)
    rw [show i0 + 0 = i0 from rfl] at he0
    unfold fetchRetryGo
    rw [he0]
    simp only [if_neg (by omega : ¬ r' = 0)]
    exact ih (i0 + 1) r' v (by omega)
      (fun j hj => by
        have h := hfails (j + 1) (by omega)
        rwa [show i0 + (j + 1) = i0 + 1 + j from by omega] at h)
      (by
        have h := hdone
        rwa [show i0 + (k' + 1) = i0 + 1 + k' from by omega] at h)

/-- Claim C9 (amended): a rate-limit/transient failure is retried with
exponential backoff (`delay * 2^i` before attempt `i+1`) up to the fixed
attempt cap, after which the last error propagates out of `fetchWithRetry`
as a thrown error; a call that fails strictly fewer times than the cap and
then succeeds returns the successful result with no error.  (At the
operation level, `getAbiFromExplorer` catches the exhaustion error and
returns null — see the counterexample.) -/
theorem c9_retry_policy :
    (∀ (α : Type) (script : Nat → HttpResp α) (retries delay : Nat) (e : JsError),
      1 ≤ retries →
      (∀ j, j < retries → ∃ e', attemptOutcome (script j) = .fail e') →
      attemptOutcome (script (retries - 1)) = .fail e →
      fetchWithRetry script retries delay =
        (.error e, (List.range (retries - 1)).map (fun j => delay * 2 ^ j))) ∧
    (∀ (α : Type) (script : Nat → HttpResp α) (retries delay k : Nat) (v : Option α),
      k < retries →
      (∀ j, j < k → ∃ e', attemptOutcome (script j) = .fail e') →
      attemptOutcome (script k) = .done v →
      (fetchWithRetry script retries delay).1 = .ok v) := by
  constructor
  · intro α script retries delay e h1 hall hlast
    have h := fetchRetryGo_fail script delay retries 0 e h1
      (fun j hj => by simpa using hall j hj)
      (by simpa using hlast)
    simpa [fetchWithRetry] using h
  · intro α script retries delay k v hk hall hdone
    have h := fetchRetryGo_succ script delay k 0 retries v hk
      (fun j hj => by simpa using hall j hj)
      (by simpa using hdone)
    simpa [fetchWithRetry] using h

/-- Claim C9, counterexample: with the cap exhausted on NOTOK responses,
`fetchWithRetry` throws the rate-limit error, but the sub-operation
`getAbiFromExplorer` catches it and returns null — exactly the value it
returns for the unverified-contract sentinel — so the exhausted error is
returned as a not-found null rather than surfaced. -/
theorem c9_counterexample :
    (fetchWithRetry scriptNotok 3 1000).1 = .error .apiNotOk ∧
    getAbiFromExplorer chainMainnet (some "key") scriptNotok = none ∧
    getAbiFromExplorer chainMainnet (some "key") scriptSentinel = none :=
  ⟨rfl, rfl, rfl⟩

/-- Witness: HTTP 429 twice then success under cap 3 yields the success;
all-NOTOK under cap 3 yields the thrown error after backoffs 1000, 2000. -/
theorem c9_retry_policy_witness :
    (fetchWithRetry script429 3 1000).1 = .ok (some "[]") ∧
    fetchWithRetry scriptNotok 3 1000 =
      (.error .apiNotOk, (List.range 2).map (fun j => 1000 * 2 ^ j)) := by
  constructor
  · exact c9_retry_policy.2 String script429 3 1000 2 (some "[]") (by omega)
      (fun j hj => ⟨.httpStatus 429, by simp [script429, hj, attemptOutcome]⟩)
      (by simp [script429, attemptOutcome])
  · exact c9_retry_policy.1 String scriptNotok 3 1000 .apiNotOk (by omega)
      (fun j _hj => ⟨.apiNotOk, by simp [scriptNotok, attemptOutcome, notokBody]⟩)
      (by simp [scriptNotok, attemptOutcome, notokBody])

/-! ## Claim C7 (combined ABI emission) -/

theorem combineAbis_some_right (x : Option (List AbiEntry)) (ia : List AbiEntry) :
    combineAbis x (some ia) ≠ none := by
  rcases x with _ | p <;> simp [combineAbis]

theorem fetchImplementation_invariant (env : ContractInfoEnv)
    (abi : Option (List AbiEntry)) :
    ((fetchImplementation env abi).combinedAbi ≠ none ↔
      (fetchImplementation env abi).implementationAbi ≠ none) ∧
    ((fetchImplementation env abi).implementationVerified = true ↔
      (fetchImplementation env abi).implementationAbi ≠ none) := by
  unfold fetchImplementation
  rcases env.implFetch with _ | c | _ | implData
  · simp [emptyImplResult]
  · simp [emptyImplResult]
  · simp [emptyImplResult]
  · dsimp only
    by_cases hst : implData.status = "1"
    · rw [if_pos hst]
      rcases implData.result with _ | l
      · simp [emptyImplResult]
      · rcases l with _ | ⟨cd, rest⟩
        · simp [emptyImplResult]
        · dsimp only
          by_cases habi : cd.ABI ≠ "" ∧ cd.ABI ≠ sentinelNotVerified
          · rw [if_pos habi]
            rcases env.parseAbi cd.ABI with _ | ia
            · simp [emptyImplResult]
            · simp [combineAbis_some_right]
          · rw [if_neg habi]
            simp [emptyImplResult]
    · rw [if_neg hst]
      simp [emptyImplResult]

theorem implResult_third (ir : ImplResult)
    (h1 : ir.combinedAbi ≠ none ↔ ir.implementationAbi ≠ none)
    (h2 : ir.implementationVerified = true ↔ ir.implementationAbi ≠ none) :
    ir.implementationVerified = false → ir.combinedAbi = none := by
  intro hv
  by_contra hc
  have hh := h2.mpr (h1.mp hc)
  rw [hv] at hh
  simp at hh

/-- Claim C7, counterexample: an unverified proxy (null proxy ABI) whose
implementation is verified still gets a combined ABI —
`combineAbis(null, implAbi)` returns the implementation ABI — so
"combinedAbi iff both ABIs non-null" fails in the only-if direction. -/
theorem c7_counterexample :
    (getContractInfo envC7 "0xcccc000000000000000000000000000000000000"
        "apikey").map
      (fun r => (r.abi, r.combinedAbi, r.implementationVerified)) =
    .ok (none, some [fooFn], true) := rfl

/-- Claim C7 (amended): `combinedAbi` is produced iff the implementation
ABI was obtained (iff `implementationVerified`), and when the
implementation fetch fails or the implementation is unverified this is
reported via `implementationVerified = false` with no combined ABI. -/
theorem c7_combined_iff_implementation (env : ContractInfoEnv)
    (addr key : String) (r : ContractInfoResult)
    (h : getContractInfo env addr key = .ok r) :
    (r.combinedAbi ≠ none ↔ r.implementationAbi ≠ none) ∧
    (r.implementationVerified = true ↔ r.implementationAbi ≠ none) ∧
    (r.implementationVerified = false → r.combinedAbi = none) := by
  unfold getContractInfo at h
  split at h
  · simp at h
  · split at h
    · simp at h
    · split at h
      · simp at h
      · split at h
        · simp at h
        · simp at h
        · simp at h
        · split at h
          · injection h with h'
            subst h'
            simp [minimalContractInfo]
          · injection h with h'
            subst h'
            simp [minimalContractInfo]
          · injection h with h'
            subst h'
            dsimp only
            split
            · refine ⟨?_, ?_, ?_⟩
              · exact (fetchImplementation_invariant env _).1
              · exact (fetchImplementation_invariant env _).2
              · exact implResult_third _ (fetchImplementation_invariant env _).1
                  (fetchImplementation_invariant env _).2
            · simp [emptyImplResult]

/-- Witness: a proxy with an unverified implementation yields
`implementationVerified = false` and, by the theorem, no combined ABI. -/
theorem c7_combined_iff_implementation_witness :
    rC7w.combinedAbi = none ∧ rC7w.implementationVerified = false :=
  ⟨(c7_combined_iff_implementation envC7w
      "0xcccc000000000000000000000000000000000000" "apikey" rC7w rfl).2.2 rfl, rfl⟩

/-! ## Claim C10 (event-signature fallback) -/

theorem getCommonNFTEventSignatures_ne_nil (a : String) :
    getCommonNFTEventSignatures a ≠ [] := by
  unfold getCommonNFTEventSignatures
  split <;> simp

theorem eventSigs_spec (ethersId : String → String) (addr : String)
    (abiUse : Option (List AbiEntry)) :
    (if (extractedEventSigs ethersId abiUse).length = 0
        then getCommonNFTEventSignatures addr
        else extractedEventSigs ethersId abiUse) ≠ [] ∧
    ((if (extractedEventSigs ethersId abiUse).length = 0
        then getCommonNFTEventSignatures addr
        else extractedEventSigs ethersId abiUse) =
        getCommonNFTEventSignatures addr ∨
      ∃ l, abiUse = some l ∧
        (if (extractedEventSigs ethersId abiUse).length = 0
          then getCommonNFTEventSignatures addr
          else extractedEventSigs ethersId abiUse) =
          extractEventSignatures ethersId l ∧
        extractEventSignatures ethersId l ≠ []) := by
  by_cases hlen : (extractedEventSigs ethersId abiUse).length = 0
  · rw [if_pos hlen]
    exact ⟨getCommonNFTEventSignatures_ne_nil addr, Or.inl rfl⟩
  · rw [if_neg hlen]
    rcases abiUse with _ | l
    · simp [extractedEventSigs] at hlen
    · refine ⟨?_, Or.inr ⟨l, rfl, rfl, ?_⟩⟩
      · intro hnil
        apply hlen
        rw [hnil]
        rfl
      · intro hnil
        apply hlen
        show (extractedEventSigs ethersId (some l)).length = 0
        simp [extractedEventSigs, hnil]

/-- Claim C10: `getContractInfo` never returns an empty `eventSignatures`
list — when the explorer returns no contract data, or the chosen
(combined-or-proxy) ABI yields no event signatures, the hardcoded common
NFT signatures are used (Transfer/Approval/ApprovalForAll, plus the
CryptoPunks events for the one hardcoded address), for any contract. -/
theorem c10_event_signatures_fallback (env : ContractInfoEnv)
    (addr key : String) (r : ContractInfoResult)
    (h : getContractInfo env addr key = .ok r) :
    r.eventSignatures ≠ [] ∧
    (r.eventSignatures = getCommonNFTEventSignatures addr ∨
      ∃ l, r.combinedAbi.orElse (fun _ => r.abi) = some l ∧
        r.eventSignatures = extractEventSignatures env.ethersId l ∧
        extractEventSignatures env.ethersId l ≠ []) ∧
    ((getCommonNFTEventSignatures addr).map (fun s => s.name) =
        ["Transfer", "Approval", "ApprovalForAll"] ∨
      (getCommonNFTEventSignatures addr).map (fun s => s.name) =
        ["Transfer", "Approval", "ApprovalForAll", "Assign", "PunkTransfer",
         "PunkBought"]) := by
  have hcommon : (getCommonNFTEventSignatures addr).map (fun s => s.name) =
        ["Transfer", "Approval", "ApprovalForAll"] ∨
      (getCommonNFTEventSignatures addr).map (fun s => s.name) =
        ["Transfer", "Approval", "ApprovalForAll", "Assign", "PunkTransfer",
         "PunkBought"] := by
    unfold getCommonNFTEventSignatures
    split
    · right; simp
    · left; simp
  unfold getContractInfo at h
  split at h
  · simp at h
  · split at h
    · simp at h
    · split at h
      · simp at h
      · split at h
        · simp at h
        · simp at h
        · simp at h
        · split at h
          · injection h with h'
            subst h'
            exact ⟨getCommonNFTEventSignatures_ne_nil addr,
              Or.inl rfl, hcommon⟩
          · injection h with h'
            subst h'
            exact ⟨getCommonNFTEventSignatures_ne_nil addr,
              Or.inl rfl, hcommon⟩
          · injection h with h'
            subst h'
            dsimp only
            exact ⟨(eventSigs_spec env.ethersId addr _).1,
              (eventSigs_spec env.ethersId addr _).2, hcommon⟩

/-- Witness: the no-contract-data environment yields the non-empty common
signatures. -/
theorem c10_event_signatures_fallback_witness :
    rC10.eventSignatures ≠ [] :=
  (c10_event_signatures_fallback envC10
    "0xcccc000000000000000000000000000000000000" "apikey" rC10 rfl).1

end ContractAnalyzer
